import Mathlib

/-!
Shallow embedding of the llm-doc-assistant backend, covering:

* `src/backend/services/processor.js` — the document processing service
  (`processFile`, the chunk-metadata map, the manifest write) and, in the
  same source file, the `LangChainService` class (the RAG chain built in
  `initialize`, `retrieveDocuments`, `callLlamaServer`, `query`,
  `shouldEscalate`);
* `src/backend/scripts/ingest.js` — the CLI ingestion script's `processFile`;
* `src/backend/controllers/chat.controller.js` — `generateConversationId`,
  `processMessage`, `shouldEscalate`, `handleEscalation` and the in-memory
  conversation `Map`.

External collaborators (document loaders, the text splitter, ChromaDB and
the llama.cpp inference server) are parameters of the embedding, passed in
environment records as functions that may fail (`Except JsError`).
Side effects on the vector store and the manifest directory are made
observable as an explicit effect list, and the external calls made by the
query pipeline are recorded in a call log.
-/

/-- The single-quote / apostrophe character as a string, used to build the
string literals of the source that contain it. -/
def squote : String := (Char.ofNat 39).toString

/-- Model of JavaScript `String.prototype.toLowerCase` (the source only ever
lowercases ASCII text), implemented on the character list. -/
def strToLower (s : String) : String := String.mk (s.data.map Char.toLower)

/-- Check whether `pat` occurs as a contiguous substring of the character
list `s`; this is the semantics of JavaScript `String.prototype.includes`. -/
def jsIncludesAux (pat : List Char) : List Char → Bool
  | [] => pat.isPrefixOf []
  | c :: rest => pat.isPrefixOf (c :: rest) || jsIncludesAux pat rest

/-- Model of JavaScript `s.includes(pat)`. -/
def jsIncludes (s pat : String) : Bool := jsIncludesAux pat.toList s.toList

/-- A JavaScript error value as observed by the source: a `message` and an
optional `code` (axios sets `code` for network errors such as ECONNREFUSED). -/
structure JsError where
  message : String
  code : Option String
  deriving Repr, DecidableEq

/-- Model of the JavaScript expression `v || null` applied to a
number-or-undefined metadata field: `0` is falsy, so both `undefined` and
`0` become `null`; any other number is kept. -/
def jsOrNull : Option Nat → Option Nat
  | some n => if n = 0 then none else some n
  | none => none

/-- Metadata carried by a LangChain document. The ingestion code spreads the
loader-provided metadata and overrides `source`, `chunk`, `filePath` (and,
in the service variant, `uploadedAt`); loaders may provide `page`. -/
structure DocMetadata where
  source : String
  page : Option Nat
  chunk : Option Nat
  filePath : Option String
  uploadedAt : Option String
  deriving Repr, DecidableEq

/-- A LangChain document: page content plus metadata. -/
structure Doc where
  pageContent : String
  metadata : DocMetadata
  deriving Repr, DecidableEq

/-- A citation returned alongside an answer (`query`'s source mapping). -/
structure Source where
  source : String
  page : Option Nat
  chunk : Option Nat
  deriving Repr, DecidableEq

/-- One message of a conversation as stored by the chat controller. -/
structure ChatMessage where
  role : String
  content : String
  timestamp : String
  sources : Option (List Source)
  deriving Repr, DecidableEq

/-- Model of Node's `path.basename(p)`: the part after the last slash
(the source never passes paths with a trailing slash). -/
def pathBasename (p : String) : String :=
  String.mk (p.data.foldl (fun acc c => if c = '/' then [] else acc ++ [c]) [])

/-- Index of the last dot of `cs` occurring at a position greater than 0,
if any (Node's `path.extname` ignores a leading dot of the basename). -/
def lastDotIndex (cs : List Char) : Option Nat :=
  (List.range cs.length).foldl
    (fun acc i => if 0 < i ∧ cs.getD i ' ' = '.' then some i else acc) none

/-- Model of Node's `path.extname(p)`: the suffix of the basename starting
at its last dot, empty when there is no dot after position 0. -/
def extname (p : String) : String :=
  let b := pathBasename p
  match lastDotIndex b.toList with
  | none => ""
  | some i => String.mk (b.toList.drop i)

/-- Model of Node's `path.basename(p, ext)`: the basename with a trailing
`ext` stripped when it is a proper suffix. -/
def pathBasenameExt (p ext : String) : String :=
  let b := pathBasename p
  if b ≠ ext ∧ ext ≠ "" ∧ ext.data.isSuffixOf b.data then
    String.mk (b.data.take (b.data.length - ext.data.length))
  else b

/-- The extensions for which the `loaders` objects of `processor.js` and
`ingest.js` have an entry. -/
def loaderExtensions : List String := [".pdf", ".docx", ".txt", ".md"]

/-- Environment of the ingestion pipeline: `load` models `loader.load()`,
`split` models `textSplitter.splitDocuments`, `upsert` models
`Chroma.fromDocuments` (which embeds and stores the chunks), and `nowIso`
models `new Date().toISOString()`. Each external call may fail. -/
structure IngestEnv where
  load : String → Except JsError (List Doc)
  split : List Doc → Except JsError (List Doc)
  upsert : List Doc → Except JsError Unit
  nowIso : String

/-- Transcription of the metadata map `splitDocs.map((doc, i) => ...)` used
by both `processor.js` (which also sets `uploadedAt`) and `ingest.js`
(which does not: `uploadedAt := none` leaves the loader value in place).
The counter starts at the caller-supplied `i` and increases by one per
chunk; both sources call it with `0`. -/
def addChunkMeta (fileName filePath : String) (uploadedAt : Option String) :
    Nat → List Doc → List Doc
  | _, [] => []
  | i, d :: ds =>
    { d with
      metadata :=
        { d.metadata with
          source := fileName
          chunk := some i
          filePath := some filePath
          uploadedAt :=
            match uploadedAt with
            | some t => some t
            | none => d.metadata.uploadedAt } } ::
      addChunkMeta fileName filePath uploadedAt (i + 1) ds

namespace Processor

/-- The manifest JSON written by `processor.js` into `data/processed`. -/
structure ProcessedInfo where
  id : String
  originalFile : String
  filename : String
  chunks : Nat
  processedAt : String
  filetype : String
  deriving Repr, DecidableEq

/-- Observable side effects of one `processFile` run: the ChromaDB upsert
(`Chroma.fromDocuments`) and the manifest write (`fs.writeFileSync` of
`<stem>.json`). -/
inductive IngestEffect where
  | upsert (docs : List Doc)
  | manifestWrite (stem : String) (info : ProcessedInfo)
  deriving Repr, DecidableEq

/-- Embedding of `processFile` from `src/backend/services/processor.js`:
extension check, load, split, metadata map, ChromaDB upsert, manifest
write. There is no try/catch in the source, so the error of the first
failing stage is the result; the effect list records the external calls
made before (and including) the failing one. -/
def processFile (env : IngestEnv) (filePath : String) :
    Except JsError ProcessedInfo × List IngestEffect :=
  let ext := strToLower (extname filePath)
  if loaderExtensions.contains ext then
    let fileName := pathBasename filePath
    match env.load filePath with
    | .error e => (.error e, [])
    | .ok docs =>
      match env.split docs with
      | .error e => (.error e, [])
      | .ok splitDocs =>
        let processedDocs := addChunkMeta fileName filePath (some env.nowIso) 0 splitDocs
        match env.upsert processedDocs with
        | .error e => (.error e, [.upsert processedDocs])
        | .ok _ =>
          let info : ProcessedInfo :=
            { id := fileName
              originalFile := filePath
              filename := fileName
              chunks := processedDocs.length
              processedAt := env.nowIso
              filetype := ext }
          (.ok info,
           [.upsert processedDocs,
            .manifestWrite (pathBasenameExt filePath ext) info])
  else
    (.error { message := "Unsupported file type: " ++ ext, code := none }, [])

end Processor

namespace IngestScript

/-- The manifest JSON written by `ingest.js` (it has fewer fields than the
service's manifest). -/
structure ScriptInfo where
  originalFile : String
  chunks : Nat
  processedAt : String
  deriving Repr, DecidableEq

/-- Observable side effects of one run of the script's `processFile`. -/
inductive Effect where
  | upsert (docs : List Doc)
  | manifestWrite (stem : String) (info : ScriptInfo)
  deriving Repr, DecidableEq

/-- Embedding of `processFile` from `src/backend/scripts/ingest.js`. The
whole body is inside `try { ... } catch { return 0 }`; an unsupported
extension logs a warning and returns `undefined` (modelled as `none`)
without throwing, and any stage failure is caught and turned into
`return 0` (modelled as `some 0`). On success it returns the chunk count. -/
def processFile (env : IngestEnv) (filePath : String) :
    Option Nat × List Effect :=
  let ext := strToLower (extname filePath)
  if loaderExtensions.contains ext then
    match env.load filePath with
    | .error _ => (some 0, [])
    | .ok docs =>
      match env.split docs with
      | .error _ => (some 0, [])
      | .ok splitDocs =>
        let fileName := pathBasename filePath
        let processedDocs := addChunkMeta fileName filePath none 0 splitDocs
        match env.upsert processedDocs with
        | .error _ => (some 0, [.upsert processedDocs])
        | .ok _ =>
          (some processedDocs.length,
           [.upsert processedDocs,
            .manifestWrite (pathBasenameExt filePath ext)
              { originalFile := filePath
                chunks := processedDocs.length
                processedAt := env.nowIso }])
  else
    (none, [])

end IngestScript

namespace LangChainService

/-- Environment of the query pipeline: `retrieve` models
`retriever.getRelevantDocuments` (a deterministic function of the query
string for a fixed vector-store state), `llama` models the
`axios.post('http://localhost:8080/completion', ...)` call of
`callLlamaServer`. Both may fail. -/
structure LlamaEnv where
  retrieve : String → Except JsError (List Doc)
  llama : String → Except JsError String

/-- Record of the external calls made during one `query` invocation:
the query strings sent to the retriever, in order, and the prompts sent to
the llama.cpp inference server, in order. -/
structure CallLog where
  retrievalQueries : List String
  llamaPrompts : List String
  deriving Repr, DecidableEq

/-- The shape of the object `query` returns: the success branch has only
`text` and `sources`; the catch branch has `text`, `error` and `escalate`.
Absent fields are `none`. -/
structure QueryResult where
  text : String
  sources : Option (List Source)
  error : Option String
  escalate : Option Bool
  deriving Repr, DecidableEq

/-- The canned apology returned by `callLlamaServer`'s catch branch and by
`query`'s catch branch. -/
def apologyText : String :=
  "I" ++ squote ++ "m sorry, I encountered an error while processing your request."

/-- The `criticalErrors` list of `LangChainService.shouldEscalate`. -/
def criticalErrors : List String := ["ECONNREFUSED", "ETIMEDOUT", "no documents"]

/-- Embedding of `LangChainService.shouldEscalate(error)`: true when the
error message or the error code contains one of the critical error kinds. -/
def shouldEscalate (error : JsError) : Bool :=
  criticalErrors.any fun errType =>
    jsIncludes error.message errType ||
      (match error.code with
       | some c => jsIncludes c errType
       | none => false)

/-- Embedding of `formatDocumentsAsString` from `langchain/util/document`:
the page contents joined by blank lines. -/
def formatDocumentsAsString (docs : List Doc) : String :=
  String.intercalate "\n\n" (docs.map Doc.pageContent)

/-- Embedding of `LangChainService.retrieveDocuments`: fetch relevant
documents and format them as a context string; any retrieval error is
caught and turned into the empty context. -/
def retrieveDocuments (env : LlamaEnv) (query : String) : String :=
  match env.retrieve query with
  | .ok docs => formatDocumentsAsString docs
  | .error _ => ""

/-- Embedding of `LangChainService.callLlamaServer`: post the prompt to the
inference server; any error (timeout, connection refused, non-2xx) is
caught inside this method and turned into the canned apology string, so the
call itself never throws to its caller. -/
def callLlamaServer (env : LlamaEnv) (prompt : String) : String :=
  match env.llama prompt with
  | .ok content => content
  | .error _ => apologyText

/-- The `questionGeneratorTemplate` of `initialize`, as the function that
f-string interpolation of `PromptTemplate` gives: template text with the
`chatHistory` and `question` slots filled in. The text reproduces the
template literal of the source, including its 8-space indentation. -/
def questionGeneratorText (chatHistory question : String) : String :=
  "Given the following conversation and a follow-up question, rephrase the follow-up question to be a standalone question that captures all relevant context from the conversation.\n\n        Chat History:\n        "
    ++ chatHistory
    ++ "\n        \n        Follow-up question: "
    ++ question
    ++ "\n        \n        Standalone question:"

/-- The `qaTemplate` of `initialize`, with the `question` and `context`
slots filled in. -/
def qaText (question context : String) : String :=
  "You are an AI assistant for answering questions about internal documentation.\n        Use the following pieces of retrieved context to answer the question.\n        If you don"
    ++ squote ++ "t know the answer, just say that you don" ++ squote
    ++ "t know.\n        Use three sentences maximum and keep the answer concise.\n        \n        Question: "
    ++ question
    ++ "\n        \n        Context:\n        "
    ++ context
    ++ "\n        \n        Answer:"

/-- Stringification of a plain JavaScript object, as produced when template
interpolation applies `String(...)` to it. -/
def jsObjectString : String := "[object Object]"

/-- The standalone question actually produced by the chain's second stage.
The chain built in `initialize` is `RunnableSequence.from` of five steps;
a plain object in the sequence is a `RunnableMap` whose every entry is
invoked with the full input of that step:

1. `{question: new RunnablePassthrough(), chatHistory: () => ""}` — the
   passthrough yields the *whole* invoke input object, and the chat history
   is replaced by the constant empty string (the `() => ""` lambda ignores
   the history that `query` passes in, despite the comment in the source);
2. `{question: questionGeneratorTemplate.pipe(new StringOutputParser())}` —
   the condensation template is only *formatted* (no inference call: the
   template pipes straight into an output parser, never into a model), so
   the "standalone question" is the condensation prompt text itself, with
   the stringified input object in its question slot and an empty history.

The result is a constant: it does not depend on the user's question. -/
def chainStandaloneQuestion : String :=
  questionGeneratorText "" jsObjectString

/-- Embedding of `this.chain.invoke({question, chatHistory})` for the chain
built in `initialize` (see `chainStandaloneQuestion` for stages 1–2):

3. `{context: ({question}) => this.retrieveDocuments(question), question}`;
4. `this.qaTemplate`;
5. `this.callLlamaServer`.

Both input fields are discarded by the chain (stage 1 replaces the history
by `""` and stage 2 replaces the question by the formatted condensation
template), hence the unused binders. Returns the answer text together with
the log of external calls the chain made. -/
def chainInvoke (env : LlamaEnv) (_question _chatHistory : String) :
    String × CallLog :=
  let standaloneQuestion := chainStandaloneQuestion
  let context := retrieveDocuments env standaloneQuestion
  let prompt := qaText standaloneQuestion context
  let answer := callLlamaServer env prompt
  (answer,
   { retrievalQueries := [standaloneQuestion], llamaPrompts := [prompt] })

/-- The source mapping of `query`: `doc => ({source, page: metadata.page ||
null, chunk: metadata.chunk || null})`. -/
def sourceOfDoc (doc : Doc) : Source :=
  { source := doc.metadata.source
    page := jsOrNull doc.metadata.page
    chunk := jsOrNull doc.metadata.chunk }

/-- Embedding of `LangChainService.query(query, chatHistory)` (the service
is assumed initialized). The chain is invoked, then the retriever is called
a second time with the *raw* query to build the source list. The only
statement of the try block that can throw is that second
`getRelevantDocuments` call (the chain swallows retrieval and inference
errors internally), in which case the catch branch returns the canned
apology, the error message, and `escalate` as computed by the service's
`shouldEscalate`. The success branch returns an object with no `escalate`
and no `error` field. The call log of the chain is extended with the
second retrieval call. -/
def query (env : LlamaEnv) (q : String) (chatHistory : List ChatMessage) :
    QueryResult × CallLog :=
  let formattedHistory :=
    String.intercalate "\n" (chatHistory.map fun msg => msg.role ++ ": " ++ msg.content)
  let chainOut := chainInvoke env q formattedHistory
  let log : CallLog :=
    { retrievalQueries := chainOut.2.retrievalQueries ++ [q]
      llamaPrompts := chainOut.2.llamaPrompts }
  match env.retrieve q with
  | .ok docs =>
    ({ text := chainOut.1
       sources := some (docs.map sourceOfDoc)
       error := none
       escalate := none }, log)
  | .error e =>
    ({ text := apologyText
       sources := none
       error := some e.message
       escalate := some (shouldEscalate e) }, log)

end LangChainService

namespace ChatController

/-- One conversation of the in-memory store. -/
structure Conversation where
  id : String
  messages : List ChatMessage
  createdAt : String
  deriving Repr, DecidableEq

/-- The module-level `conversations` Map, modelled as an insertion-ordered
association list. -/
abbrev ConvStore := List (String × Conversation)

/-- Model of `conversations.get(k)`. -/
def storeGet : ConvStore → String → Option Conversation
  | [], _ => none
  | kv :: rest, k => if kv.1 = k then some kv.2 else storeGet rest k

/-- Model of `conversations.has(k)`. -/
def storeHas (s : ConvStore) (k : String) : Bool := (storeGet s k).isSome

/-- Model of `conversations.set(k, v)`: replace in place when the key
exists, append otherwise (JavaScript Map insertion-order semantics). -/
def storeSet : ConvStore → String → Conversation → ConvStore
  | [], k, v => [(k, v)]
  | kv :: rest, k, v =>
    if kv.1 = k then (k, v) :: rest else kv :: storeSet rest k v

/-- Environment of the controller: the service's external world plus the
clock (`Date.now()` as milliseconds and `toISOString()`) and the random
suffix `Math.random().toString(36).substring(2, 7)`. -/
structure ControllerEnv where
  llm : LangChainService.LlamaEnv
  nowMs : Nat
  nowIso : String
  rand : String

/-- Embedding of `generateConversationId`. -/
def generateConversationId (env : ControllerEnv) : String :=
  "conv-" ++ toString env.nowMs ++ "-" ++ env.rand

/-- The system message content used when a conversation is created. -/
def systemPromptText : String :=
  "I am an AI assistant that helps with your documentation."

/-- The `lowConfidenceIndicators` list of the controller's `shouldEscalate`,
in source order. -/
def lowConfidenceIndicators : List String :=
  ["I don" ++ squote ++ "t know",
   "I" ++ squote ++ "m not sure",
   "I don" ++ squote ++ "t have enough information",
   "I cannot answer",
   "I" ++ squote ++ "m unable to provide"]

/-- Embedding of the controller's `shouldEscalate(text)`: true when the
lowercased text contains the lowercased form of one of the indicators. -/
def shouldEscalate (text : String) : Bool :=
  lowConfidenceIndicators.any fun indicator =>
    jsIncludes (strToLower text) (strToLower indicator)

/-- The JavaScript truthiness test `!conversationId ||
!conversations.has(conversationId)` that guards conversation creation
(`undefined`, `null` and the empty string are falsy). -/
def missingOrUnknown (conversationId : Option String) (s : ConvStore) : Bool :=
  match conversationId with
  | none => true
  | some c => c = "" || !(storeHas s c)

/-- The object `processMessage` returns (the catch branch leaves `sources`
as `[]` via `response.sources || []` in the calling code path; here the
catch shape carries `error` and forces `escalate`). -/
structure ChatResponse where
  text : String
  sources : List Source
  conversationId : String
  escalate : Bool
  timestamp : String
  error : Option String
  deriving Repr, DecidableEq

/-- The user message pushed by `processMessage`. -/
def userMessage (env : ControllerEnv) (message : String) : ChatMessage :=
  { role := "user", content := message, timestamp := env.nowIso, sources := none }

/-- The fresh conversation created by `processMessage` for a missing,
empty or unknown conversation id: its only message is the system message. -/
def newConversation (env : ControllerEnv) (cid : String) : Conversation :=
  { id := cid
    messages :=
      [{ role := "system"
         content := systemPromptText
         timestamp := env.nowIso
         sources := none }]
    createdAt := env.nowIso }

/-- The `langchainService.query` call of `processMessage`: the chat history
is `conversation.messages.slice(1)` taken after the user message was
pushed, so it excludes the system message and includes the fresh user
message. -/
def foundResponse (env : ControllerEnv) (message : String)
    (conversation : Conversation) : LangChainService.QueryResult :=
  (LangChainService.query env.llm message
    ((conversation.messages ++ [userMessage env message]).drop 1)).1

/-- The assistant message pushed by `processMessage`, carrying
`response.sources || []`. -/
def assistantMessage (env : ControllerEnv)
    (response : LangChainService.QueryResult) : ChatMessage :=
  { role := "assistant"
    content := response.text
    timestamp := env.nowIso
    sources := some (response.sources.getD []) }

/-- Body of `processMessage` once the conversation has been found in the
store: push the user message, query the service, decide escalation as
`response.escalate || shouldEscalate(response.text)`, push the assistant
message, store the conversation back, and return the response object. -/
def processMessageFound (env : ControllerEnv) (message : String)
    (cid : String) (conversations1 : ConvStore) (conversation : Conversation) :
    ChatResponse × ConvStore :=
  let response := foundResponse env message conversation
  ({ text := response.text
     sources := response.sources.getD []
     conversationId := cid
     escalate := response.escalate.getD false || shouldEscalate response.text
     timestamp := env.nowIso
     error := none },
   storeSet conversations1 cid
     { conversation with
       messages :=
         (conversation.messages ++ [userMessage env message])
           ++ [assistantMessage env (foundResponse env message conversation)] })

/-- The lookup step of `processMessage`. The `none` branch mirrors the
catch clause (in JavaScript a miss would make `conversation.messages`
throw a TypeError, caught by the surrounding try/catch, which returns the
apology with `escalate: true`); it is unreachable because the conversation
was either found or just inserted. -/
def processMessageGo (env : ControllerEnv) (message : String) (cid : String)
    (conversations1 : ConvStore) : ChatResponse × ConvStore :=
  match storeGet conversations1 cid with
  | none =>
    ({ text := LangChainService.apologyText
       sources := []
       conversationId := cid
       escalate := true
       timestamp := env.nowIso
       error := some "TypeError" }, conversations1)
  | some conversation =>
    processMessageFound env message cid conversations1 conversation

/-- Embedding of `processMessage(message, conversationId)`. The store is
passed and returned explicitly (in the source it is the module-level Map,
mutated in place). A fresh conversation keyed by a generated id is
inserted when the supplied id is missing, empty or unknown; then the found
conversation is processed by `processMessageGo` / `processMessageFound`. -/
def processMessage (env : ControllerEnv) (message : String)
    (conversationId : Option String) (conversations : ConvStore) :
    ChatResponse × ConvStore :=
  let needNew := missingOrUnknown conversationId conversations
  let cid := if needNew then generateConversationId env else conversationId.getD ""
  let conversations1 :=
    if needNew then storeSet conversations cid (newConversation env cid)
    else conversations
  processMessageGo env message cid conversations1

/-- An escalation ticket as returned by `handleEscalation`. -/
structure Ticket where
  escalationId : String
  conversationId : String
  reason : String
  status : String
  timestamp : String
  deriving Repr, DecidableEq

/-- Embedding of `handleEscalation(conversationId, reason)`: throw
`Invalid conversation ID` when the id is falsy or unknown, otherwise
return a pending ticket with a generated escalation id. The catch clause
of the source just rethrows, so the error propagates unchanged. -/
def handleEscalation (env : ControllerEnv) (conversationId : Option String)
    (reason : String) (conversations : ConvStore) : Except String Ticket :=
  if missingOrUnknown conversationId conversations then
    .error "Invalid conversation ID"
  else
    .ok { escalationId := "esc-" ++ toString env.nowMs ++ "-" ++ env.rand
          conversationId := conversationId.getD ""
          reason := reason
          status := "pending"
          timestamp := env.nowIso }

end ChatController

namespace ChatController

/-- A conversation whose first stored message is the system message. -/
def headIsSystem (c : Conversation) : Bool :=
  match c.messages with
  | [] => false
  | m :: _ => m.role == "system"

/-- The store invariant: every stored conversation starts with the system
message pushed at creation. -/
def systemHeadOk (s : ConvStore) : Bool := s.all fun kv => headIsSystem kv.2

/-- The store invariant that every key is a non-empty string (keys are only
ever the generated `conv-...` ids). -/
def keysNonempty (s : ConvStore) : Bool := s.all fun kv => !(kv.1 == "")

theorem storeGet_storeSet_self (s : ConvStore) (k : String) (v : Conversation) :
    storeGet (storeSet s k v) k = some v := by
  induction s with
  | nil => simp [storeSet, storeGet]
  | cons kv rest ih =>
    by_cases h : kv.1 = k
    · simp [storeSet, storeGet, h]
    · simp [storeSet, storeGet, h, ih]

theorem storeGet_mem {s : ConvStore} {k : String} {v : Conversation}
    (h : storeGet s k = some v) : (k, v) ∈ s := by
  induction s with
  | nil => simp [storeGet] at h
  | cons kv rest ih =>
    obtain ⟨a, b⟩ := kv
    by_cases hk : a = k
    · subst hk
      simp [storeGet] at h
      subst h
      exact List.mem_cons_self _ _
    · simp only [storeGet] at h
      rw [if_neg hk] at h
      exact List.mem_cons_of_mem _ (ih h)

theorem storeAll_of_get {s : ConvStore} {p : String × Conversation → Bool}
    {k : String} {v : Conversation}
    (hall : s.all p = true) (h : storeGet s k = some v) : p (k, v) = true :=
  List.all_eq_true.mp hall _ (storeGet_mem h)

theorem storeSet_all {s : ConvStore} {p : String × Conversation → Bool}
    {k : String} {v : Conversation}
    (hall : s.all p = true) (hp : p (k, v) = true) :
    (storeSet s k v).all p = true := by
  induction s with
  | nil => simp [storeSet, hp]
  | cons kv rest ih =>
    rw [List.all_cons, Bool.and_eq_true] at hall
    by_cases h : kv.1 = k
    · simp [storeSet, h, List.all_cons, hp, hall.2]
    · simp [storeSet, h, List.all_cons, hall.1, ih hall.2]

theorem storeHas_exists {s : ConvStore} {k : String} (h : storeHas s k = true) :
    ∃ v, storeGet s k = some v := by
  unfold storeHas at h
  exact Option.isSome_iff_exists.mp h

theorem headIsSystem_append {c : Conversation} (l : List ChatMessage)
    (h : headIsSystem c = true) :
    headIsSystem { c with messages := c.messages ++ l } = true := by
  obtain ⟨cId, msgs, created⟩ := c
  cases msgs with
  | nil => exact absurd h (Bool.false_ne_true)
  | cons m rest => exact h

/-- If the lowered text contains the lowered form of one of the
low-confidence indicators, the controller's `shouldEscalate` fires. -/
theorem shouldEscalate_of_phrase {text phrase : String}
    (hmem : phrase ∈ lowConfidenceIndicators)
    (hsub : jsIncludes (strToLower text) (strToLower phrase) = true) :
    shouldEscalate text = true :=
  List.any_eq_true.mpr ⟨phrase, hmem, hsub⟩

end ChatController

theorem addChunkMeta_length (fileName filePath : String)
    (uploadedAt : Option String) :
    ∀ (l : List Doc) (n : Nat),
      (addChunkMeta fileName filePath uploadedAt n l).length = l.length := by
  intro l
  induction l with
  | nil => intro n; rfl
  | cons d ds ih => intro n; simp [addChunkMeta, ih]

theorem addChunkMeta_get_chunk (fileName filePath : String)
    (uploadedAt : Option String) :
    ∀ (l : List Doc) (n i : Nat)
      (hi : i < (addChunkMeta fileName filePath uploadedAt n l).length),
      ((addChunkMeta fileName filePath uploadedAt n l).get ⟨i, hi⟩).metadata.chunk
        = some (n + i) := by
  intro l
  induction l with
  | nil => intro n i hi; exact absurd hi (Nat.not_lt_zero i)
  | cons d ds ih =>
    intro n i hi
    cases i with
    | zero => rfl
    | succ j =>
      have hj : j < (addChunkMeta fileName filePath uploadedAt (n + 1) ds).length :=
        Nat.lt_of_succ_lt_succ hi
      have hrec := ih (n + 1) j hj
      rw [show n + (j + 1) = (n + 1) + j by omega]
      exact hrec

/-- A benign external environment for exercising the query pipeline: the
retriever always returns no documents and the inference server answers. -/
def envBenign : LangChainService.LlamaEnv :=
  { retrieve := fun _ => .ok []
    llama := fun _ => .ok "answer" }

/-- C1: the claim states that `query(q, [])` sends `q` verbatim to
retrieval and to the QA prompt and makes no condensation call to the
inference server. At question `"hi"` with empty history the chain instead
sends the constant formatted condensation template
(`chainStandaloneQuestion`, which is not `"hi"`) to retrieval and to the
QA prompt; the second retrieval call (for sources) uses the raw `"hi"`.
The only inference-server call is the single QA call (so the
"no condensation call" half holds — trivially, for every history — because
the chain pipes the condensation template into a string parser and never
into the model). -/
theorem c1_condensation_template_always_applied :
    (LangChainService.query envBenign "hi" []).2.retrievalQueries
        = [LangChainService.chainStandaloneQuestion, "hi"] ∧
      LangChainService.chainStandaloneQuestion ≠ "hi" ∧
      (LangChainService.query envBenign "hi" []).2.llamaPrompts
        = [LangChainService.qaText LangChainService.chainStandaloneQuestion ""] := by
  refine ⟨rfl, ?_, rfl⟩
  decide

/-- The environment in which the inference server refuses the connection:
every llama.cpp call fails with ECONNREFUSED, while retrieval succeeds. -/
def envLlamaDown : LangChainService.LlamaEnv :=
  { retrieve := fun _ => .ok []
    llama := fun _ =>
      .error { message := "connect ECONNREFUSED 127.0.0.1:8080"
               code := some "ECONNREFUSED" } }

/-- The controller environment sitting on top of `envLlamaDown`. -/
def envLlamaDownCtrl : ChatController.ControllerEnv :=
  { llm := envLlamaDown, nowMs := 0, nowIso := "t", rand := "r" }

/-- C2: the claim states that when the inference call throws or times out,
`query` returns `escalate = true` with a non-empty apology. In the code,
`callLlamaServer` catches its own error and returns the apology string, so
the chain completes normally and `query`'s success branch returns an
object with NO `escalate` field (`none` here, falsy in JavaScript) — the
catch branch with `shouldEscalate(error)` is unreachable for inference
failures. The apology/no-propagation half holds, but the caller
(`processMessage`) sees `escalate = false`. -/
theorem c2_inference_failure_yields_no_escalation :
    (LangChainService.query envLlamaDown "hi" []).1.text
        = LangChainService.apologyText ∧
      LangChainService.apologyText ≠ "" ∧
      (LangChainService.query envLlamaDown "hi" []).1.escalate = none ∧
      (ChatController.processMessage envLlamaDownCtrl "hi" none []).1.escalate
        = false := by
  refine ⟨rfl, by decide, rfl, ?_⟩
  decide

/-- C10: the source mapping of `query` uses the falsy coercions
`metadata.page || null` and `metadata.chunk || null`, so a chunk index of 0
(or a page number of 0) is reported as `null` rather than 0, while every
non-zero value is returned unchanged. -/
theorem c10_zero_chunk_reported_null (doc : Doc) :
    (doc.metadata.chunk = some 0 →
        (LangChainService.sourceOfDoc doc).chunk = none) ∧
      (doc.metadata.page = some 0 →
        (LangChainService.sourceOfDoc doc).page = none) ∧
      (∀ n : Nat, n ≠ 0 → doc.metadata.chunk = some n →
        (LangChainService.sourceOfDoc doc).chunk = some n) ∧
      (∀ n : Nat, n ≠ 0 → doc.metadata.page = some n →
        (LangChainService.sourceOfDoc doc).page = some n) := by
  refine ⟨fun h => ?_, fun h => ?_, fun n hn h => ?_, fun n hn h => ?_⟩
  · simp [LangChainService.sourceOfDoc, jsOrNull, h]
  · simp [LangChainService.sourceOfDoc, jsOrNull, h]
  · simp [LangChainService.sourceOfDoc, jsOrNull, h, hn]
  · simp [LangChainService.sourceOfDoc, jsOrNull, h, hn]

/-- A retrieved chunk whose chunk index is 0 and whose page is 3. -/
def docChunkZero : Doc :=
  { pageContent := "intro"
    metadata :=
      { source := "guide.pdf"
        page := some 3
        chunk := some 0
        filePath := none
        uploadedAt := none } }

/-- Witness for C10 at a concrete document: chunk 0 is reported as `null`,
page 3 is reported unchanged. -/
theorem c10_zero_chunk_witness :
    docChunkZero.metadata.chunk = some 0 ∧
      (LangChainService.sourceOfDoc docChunkZero).chunk = none ∧
      (LangChainService.sourceOfDoc docChunkZero).page = some 3 :=
  ⟨rfl, (c10_zero_chunk_reported_null docChunkZero).1 rfl,
    (c10_zero_chunk_reported_null docChunkZero).2.2.2 3 (by decide) rfl⟩

/-- An ingestion environment whose loader is never expected to be reached
(it errors if called); splitting and upserting succeed. -/
def envUnsupported : IngestEnv :=
  { load := fun _ => .error { message := "load must not be called", code := none }
    split := fun docs => .ok docs
    upsert := fun _ => .ok ()
    nowIso := "2024-01-01T00:00:00.000Z" }

/-- C5 counterexample: for the `.xyz` file the CLI ingest script's
`processFile` does NOT fail with an error — it logs a warning and returns
`undefined` (modelled `none`), completing normally with no upsert and no
manifest write, so the claim's "fails with an UnsupportedFormat error"
does not hold of this cited implementation. -/
theorem c5_ingest_script_no_error_counterexample :
    IngestScript.processFile envUnsupported "docs/file.xyz" = (none, []) := by
  rfl

/-- C5 amended: on an extension outside `.pdf/.docx/.txt/.md` the service's
`processFile` throws `Unsupported file type: <ext>` and performs no upsert
and no manifest write, while the ingest script's `processFile` performs no
upsert and no manifest write but completes without error (warn + return). -/
theorem c5_unsupported_extension_rejected
    (env env2 : IngestEnv) (filePath : String)
    (h : loaderExtensions.contains (strToLower (extname filePath)) = false) :
    Processor.processFile env filePath =
        (.error { message := "Unsupported file type: " ++ strToLower (extname filePath)
                  code := none }, []) ∧
      IngestScript.processFile env2 filePath = (none, []) := by
  have hnot : ¬ (strToLower (extname filePath) ∈ loaderExtensions) := by
    simpa [List.contains, List.elem_eq_mem] using h
  unfold Processor.processFile IngestScript.processFile
  simp only []
  rw [if_neg (by simpa [List.contains, List.elem_eq_mem] using h),
    if_neg (by simpa [List.contains, List.elem_eq_mem] using h)]
  exact ⟨rfl, rfl⟩

/-- Witness for C5 at the concrete path `docs/file.xyz`. -/
theorem c5_unsupported_witness :
    Processor.processFile envUnsupported "docs/file.xyz" =
        (.error { message := "Unsupported file type: " ++ strToLower (extname "docs/file.xyz")
                  code := none }, []) ∧
      IngestScript.processFile envUnsupported "docs/file.xyz" = (none, []) :=
  c5_unsupported_extension_rejected envUnsupported envUnsupported "docs/file.xyz" (by decide)

/-- A chunk about refunds, indexed under `refund.txt`. -/
def docRefund : Doc :=
  { pageContent := "Refunds are issued within 30 days."
    metadata :=
      { source := "refund.txt"
        page := none
        chunk := some 1
        filePath := none
        uploadedAt := none } }

/-- A chunk about shipping, indexed under `shipping.txt`. -/
def docShipping : Doc :=
  { pageContent := "Shipping takes 5 days."
    metadata :=
      { source := "shipping.txt"
        page := none
        chunk := some 2
        filePath := none
        uploadedAt := none } }

/-- A deterministic retriever that returns the refund chunk for the raw
question and the shipping chunk for every other query string (a vector
store is free to rank different queries differently). -/
def envTwoDocs : LangChainService.LlamaEnv :=
  { retrieve := fun q =>
      if q = "What is the refund policy?" then .ok [docRefund] else .ok [docShipping]
    llama := fun _ => .ok "answer" }

/-- C4 counterexample: the retrieval step that builds the prompt context is
made with the chain's condensation-template text and returns the shipping
chunk, while the returned Source list is built from a second retrieval
with the raw question and lists the refund chunk — so the sources are not
the chunk set that built the prompt context. -/
theorem c4_sources_differ_counterexample :
    envTwoDocs.retrieve LangChainService.chainStandaloneQuestion = .ok [docShipping] ∧
      (LangChainService.query envTwoDocs "What is the refund policy?" []).1.sources
        = some [LangChainService.sourceOfDoc docRefund] ∧
      some [LangChainService.sourceOfDoc docRefund]
        ≠ some ([docShipping].map LangChainService.sourceOfDoc) := by
  refine ⟨?_, ?_, by decide⟩
  · show (if LangChainService.chainStandaloneQuestion = "What is the refund policy?"
        then (Except.ok [docRefund] : Except JsError (List Doc))
        else .ok [docShipping]) = .ok [docShipping]
    rw [if_neg (by decide)]
  · show (LangChainService.query envTwoDocs "What is the refund policy?" []).1.sources
        = some [LangChainService.sourceOfDoc docRefund]
    rfl

/-- C4 amended: on the success path the Source list is exactly the result
of a second retriever call made with the raw question, mapped through
`sourceOfDoc` in that retrieval's rank order; the retrieval that built the
prompt context was made with the constant condensation-template text (the
call log records both queries in order), so the two agree only when the
retriever returns the same chunks for both query strings. -/
theorem c4_sources_from_second_retrieval
    (env : LangChainService.LlamaEnv) (q : String) (history : List ChatMessage)
    (docs : List Doc) (h : env.retrieve q = .ok docs) :
    (LangChainService.query env q history).1.sources
        = some (docs.map LangChainService.sourceOfDoc) ∧
      (LangChainService.query env q history).2.retrievalQueries
        = [LangChainService.chainStandaloneQuestion, q] := by
  unfold LangChainService.query
  simp [h, LangChainService.chainInvoke]

/-- Witness for C4 at the concrete two-document environment. -/
theorem c4_sources_witness :
    (LangChainService.query envTwoDocs "What is the refund policy?" []).1.sources
        = some ([docRefund].map LangChainService.sourceOfDoc) ∧
      (LangChainService.query envTwoDocs "What is the refund policy?" []).2.retrievalQueries
        = [LangChainService.chainStandaloneQuestion, "What is the refund policy?"] :=
  c4_sources_from_second_retrieval envTwoDocs "What is the refund policy?" [] [docRefund]
    (by show (if ("What is the refund policy?" : String) = "What is the refund policy?"
          then (Except.ok [docRefund] : Except JsError (List Doc))
          else .ok [docShipping]) = .ok [docRefund]
        rw [if_pos rfl])

/-- If the text returned by the lookup-and-respond step contains a
low-confidence indicator (case-insensitively), its escalation flag is set:
either the branch forces `escalate := true` outright, or the flag is
`response.escalate || shouldEscalate(response.text)` with the right
disjunct true. -/
theorem bool_or_of_right {a b : Bool} (h : b = true) : (a || b) = true := by
  cases a <;> simp [h]

theorem processMessageGo_escalate_of_text (env : ChatController.ControllerEnv)
    (message cid : String) (s1 : ChatController.ConvStore) (phrase : String)
    (hmem : phrase ∈ ChatController.lowConfidenceIndicators)
    (hsub : jsIncludes
        (strToLower (ChatController.processMessageGo env message cid s1).1.text)
        (strToLower phrase) = true) :
    (ChatController.processMessageGo env message cid s1).1.escalate = true := by
  unfold ChatController.processMessageGo at hsub ⊢
  cases hg : ChatController.storeGet s1 cid with
  | none => rfl
  | some conv =>
    rw [hg] at hsub
    exact bool_or_of_right (ChatController.shouldEscalate_of_phrase hmem hsub)

/-- C3: whenever the text in the response returned by `processMessage`
contains (case-insensitively, as a substring) a phrase of the fixed
low-confidence list, the escalation flag of that response is true — in the
success path the flag is `response.escalate || shouldEscalate(text)` and
the text is returned verbatim, and the error path forces the flag. -/
theorem c3_low_confidence_phrase_forces_escalation
    (env : ChatController.ControllerEnv) (message : String)
    (conversationId : Option String) (conversations : ChatController.ConvStore)
    (phrase : String)
    (hmem : phrase ∈ ChatController.lowConfidenceIndicators)
    (hsub : jsIncludes
        (strToLower
          (ChatController.processMessage env message conversationId conversations).1.text)
        (strToLower phrase) = true) :
    (ChatController.processMessage env message conversationId conversations).1.escalate
      = true :=
  processMessageGo_escalate_of_text env message _ _ phrase hmem hsub

/-- A controller environment whose inference server always answers with a
low-confidence reply. -/
def envUnsure : ChatController.ControllerEnv :=
  { llm :=
      { retrieve := fun _ => .ok []
        llama := fun _ => .ok ("I don" ++ squote ++ "t know.") }
    nowMs := 0
    nowIso := "t"
    rand := "r" }

/-- Witness for C3: a successful inference call returning "I don't know."
makes `processMessage` escalate. -/
theorem c3_low_confidence_witness :
    (ChatController.processMessage envUnsure "q" none []).1.escalate = true :=
  c3_low_confidence_phrase_forces_escalation envUnsure "q" none []
    ("I don" ++ squote ++ "t know") (by decide) (by decide)

/-- C6: for a supported extension, if any stage of ingestion fails — the
load, the split, or the embed-and-upsert call on the metadata-tagged
chunks — then `processFile` returns exactly that stage's error to its
caller (there is no try/catch in `processor.js`'s `processFile`), and the
manifest write for the file never appears among the performed effects. -/
theorem c6_stage_failure_propagates_no_manifest
    (env : IngestEnv) (filePath : String) (e : JsError)
    (hext : loaderExtensions.contains (strToLower (extname filePath)) = true)
    (h : env.load filePath = .error e ∨
      (∃ docs, env.load filePath = .ok docs ∧
        (env.split docs = .error e ∨
          (∃ splitDocs, env.split docs = .ok splitDocs ∧
            env.upsert
              (addChunkMeta (pathBasename filePath) filePath (some env.nowIso) 0 splitDocs)
              = .error e)))) :
    (Processor.processFile env filePath).1 = .error e ∧
      ∀ stem info,
        Processor.IngestEffect.manifestWrite stem info
          ∉ (Processor.processFile env filePath).2 := by
  unfold Processor.processFile
  rw [if_pos hext]
  rcases h with h1 | ⟨docs, hd, h2 | ⟨sdocs, hs, h3⟩⟩
  · rw [h1]
    exact ⟨rfl, fun stem info hmem => by simp at hmem⟩
  · rw [hd]
    dsimp only
    rw [h2]
    exact ⟨rfl, fun stem info hmem => by simp at hmem⟩
  · rw [hd]
    dsimp only
    rw [hs]
    dsimp only
    rw [h3]
    exact ⟨rfl, fun stem info hmem => by simp at hmem⟩

/-- The error of a failing loader. -/
def loadError : JsError := { message := "ENOENT: no such file or directory", code := some "ENOENT" }

/-- An ingestion environment whose loader fails. -/
def envLoadFails : IngestEnv :=
  { load := fun _ => .error loadError
    split := fun docs => .ok docs
    upsert := fun _ => .ok ()
    nowIso := "t" }

/-- A manifest entry used only to instantiate the non-membership claim. -/
def manifestProbe : Processor.ProcessedInfo :=
  { id := "a.txt", originalFile := "docs/a.txt", filename := "a.txt"
    chunks := 0, processedAt := "t", filetype := ".txt" }

/-- Witness for C6: a failing load on `docs/a.txt` surfaces the loader's
error and writes no manifest entry. -/
theorem c6_failure_witness :
    (Processor.processFile envLoadFails "docs/a.txt").1 = .error loadError ∧
      Processor.IngestEffect.manifestWrite "a" manifestProbe
        ∉ (Processor.processFile envLoadFails "docs/a.txt").2 :=
  ⟨(c6_stage_failure_propagates_no_manifest envLoadFails "docs/a.txt" loadError
      (by decide) (Or.inl rfl)).1,
    (c6_stage_failure_propagates_no_manifest envLoadFails "docs/a.txt" loadError
      (by decide) (Or.inl rfl)).2 "a" manifestProbe⟩

/-- C8: every chunk list handed to the ChromaDB upsert by the service's
`processFile` carries contiguous chunk indices starting at 0 — the chunk
at position `i` of the split order has `metadata.chunk = i` (hence the
indices are strictly increasing in document order). -/
theorem c8_chunk_indices_contiguous
    (env : IngestEnv) (filePath : String) (docs : List Doc)
    (h : Processor.IngestEffect.upsert docs ∈ (Processor.processFile env filePath).2)
    (i : Nat) (hi : i < docs.length) :
    (docs.get ⟨i, hi⟩).metadata.chunk = some i := by
  have hdocs : ∃ splitDocs,
      docs = addChunkMeta (pathBasename filePath) filePath (some env.nowIso) 0 splitDocs := by
    unfold Processor.processFile at h
    by_cases hc : loaderExtensions.contains (strToLower (extname filePath)) = true
    · rw [if_pos hc] at h
      cases hl : env.load filePath with
      | error e => rw [hl] at h; simp at h
      | ok ldocs =>
        rw [hl] at h
        dsimp only at h
        cases hsp : env.split ldocs with
        | error e => rw [hsp] at h; simp at h
        | ok sdocs =>
          rw [hsp] at h
          dsimp only at h
          cases hup : env.upsert
              (addChunkMeta (pathBasename filePath) filePath (some env.nowIso) 0 sdocs) with
          | error e =>
            rw [hup] at h
            simp at h
            exact ⟨sdocs, h⟩
          | ok u =>
            rw [hup] at h
            simp at h
            exact ⟨sdocs, h⟩
    · rw [if_neg hc] at h
      simp at h
  obtain ⟨sdocs, rfl⟩ := hdocs
  have hval := addChunkMeta_get_chunk (pathBasename filePath) filePath
    (some env.nowIso) sdocs 0 i hi
  simpa using hval

/-- A plain document carrying no metadata of interest. -/
def docPlain (s : String) : Doc :=
  { pageContent := s
    metadata :=
      { source := "", page := none, chunk := none, filePath := none, uploadedAt := none } }

/-- An ingestion environment that splits the loaded file into two chunks. -/
def envTwoChunks : IngestEnv :=
  { load := fun _ => .ok [docPlain "full text"]
    split := fun _ => .ok [docPlain "chunk one", docPlain "chunk two"]
    upsert := fun _ => .ok ()
    nowIso := "t" }

/-- Witness for C8: in the two-chunk upsert performed for `docs/a.txt` the
chunk at position 1 carries index 1. -/
theorem c8_chunk_indices_witness :
    ((addChunkMeta (pathBasename "docs/a.txt") "docs/a.txt" (some "t") 0
        [docPlain "chunk one", docPlain "chunk two"]).get
      ⟨1, by decide⟩).metadata.chunk = some 1 :=
  c8_chunk_indices_contiguous envTwoChunks "docs/a.txt" _ (by decide) 1 (by decide)

/-- C7: for every conversation id known to the store (store keys are
non-empty by the store invariant: only generated `conv-...` ids are ever
inserted), `handleEscalation` returns a Ticket with `status = "pending"`
and the matching `conversationId`; for a missing id or one not in the
store it throws `Invalid conversation ID` and returns no ticket. -/
theorem c7_handleEscalation_contract
    (env : ChatController.ControllerEnv) (conversations : ChatController.ConvStore)
    (conversationId : Option String) (reason : String)
    (hkeys : ChatController.keysNonempty conversations = true) :
    (∀ c, conversationId = some c →
        ChatController.storeHas conversations c = true →
        ChatController.handleEscalation env conversationId reason conversations =
          .ok { escalationId := "esc-" ++ toString env.nowMs ++ "-" ++ env.rand
                conversationId := c
                reason := reason
                status := "pending"
                timestamp := env.nowIso }) ∧
      ((conversationId = none ∨
          ∀ c, conversationId = some c →
            ChatController.storeHas conversations c = false) →
        ChatController.handleEscalation env conversationId reason conversations =
          .error "Invalid conversation ID") := by
  constructor
  · rintro c rfl hhas
    have hc : ¬ (c = "") := by
      obtain ⟨v, hv⟩ := ChatController.storeHas_exists hhas
      have hp := ChatController.storeAll_of_get hkeys hv
      simpa using hp
    have hmu : ChatController.missingOrUnknown (some c) conversations = false := by
      simp [ChatController.missingOrUnknown, hhas, hc]
    simp [ChatController.handleEscalation, hmu]
  · intro hcase
    have hmu : ChatController.missingOrUnknown conversationId conversations = true := by
      rcases hcase with rfl | hall
      · rfl
      · cases conversationId with
        | none => rfl
        | some c => simp [ChatController.missingOrUnknown, hall c rfl]
    simp [ChatController.handleEscalation, hmu]

/-- A stored conversation fixture whose first message is the system
message. -/
def convFixture : ChatController.Conversation :=
  { id := "conv-1-ab"
    messages :=
      [{ role := "system"
         content := ChatController.systemPromptText
         timestamp := "t"
         sources := none }]
    createdAt := "t" }

/-- A one-conversation store. -/
def storeFixture : ChatController.ConvStore := [("conv-1-ab", convFixture)]

/-- A controller environment for the escalation witness. -/
def envCtrlFixture : ChatController.ControllerEnv :=
  { llm := envBenign, nowMs := 9, nowIso := "t9", rand := "zzzzz" }

/-- Witness for C7: a known id yields a pending ticket with the matching
conversation id; an unknown id fails with the invalid-id error. -/
theorem c7_escalation_witness :
    ChatController.handleEscalation envCtrlFixture (some "conv-1-ab") "test" storeFixture =
        .ok { escalationId := "esc-" ++ toString envCtrlFixture.nowMs ++ "-" ++ envCtrlFixture.rand
              conversationId := "conv-1-ab"
              reason := "test"
              status := "pending"
              timestamp := envCtrlFixture.nowIso } ∧
      ChatController.handleEscalation envCtrlFixture (some "ghost") "test" storeFixture =
        .error "Invalid conversation ID" :=
  ⟨(c7_handleEscalation_contract envCtrlFixture storeFixture (some "conv-1-ab") "test"
      (by decide)).1 "conv-1-ab" rfl (by decide),
    (c7_handleEscalation_contract envCtrlFixture storeFixture (some "ghost") "test"
      (by decide)).2
      (Or.inr fun c hc => by
        injection hc with hc
        subst hc
        decide)⟩

/-- The response half of `processMessageFound` carries the conversation id
it was given. -/
theorem processMessageFound_conversationId (env : ChatController.ControllerEnv)
    (message cid : String) (s1 : ChatController.ConvStore)
    (conv : ChatController.Conversation) :
    (ChatController.processMessageFound env message cid s1 conv).1.conversationId = cid := rfl

/-- The store half of `processMessageFound` stores back the conversation
with the user and assistant messages appended, under the same key. -/
theorem processMessageFound_store (env : ChatController.ControllerEnv)
    (message cid : String) (s1 : ChatController.ConvStore)
    (conv : ChatController.Conversation) :
    (ChatController.processMessageFound env message cid s1 conv).2
      = ChatController.storeSet s1 cid
          { conv with
            messages :=
              (conv.messages ++ [ChatController.userMessage env message])
                ++ [ChatController.assistantMessage env
                      (ChatController.foundResponse env message conv)] } := rfl

/-- A controller environment whose generated id collides with the id the
caller supplies: `Date.now() = 5` and random suffix `"abcde"`. -/
def envCollision : ChatController.ControllerEnv :=
  { llm := envBenign, nowMs := 5, nowIso := "t", rand := "abcde" }

/-- C9 counterexample: `conv-5-abcde` is unknown to the empty store, yet
`processMessage` returns exactly that id, because the generated id
(`Date.now()` plus random suffix) is not checked against the supplied
unknown id — so "the returned conversationId differs from any supplied
unknown ID" fails when the generator output coincides with it. -/
theorem c9_generated_id_collision_counterexample :
    ChatController.storeHas [] "conv-5-abcde" = false ∧
      (ChatController.processMessage envCollision "hi" (some "conv-5-abcde") []).1.conversationId
        = "conv-5-abcde" := by
  exact ⟨rfl, rfl⟩

/-- C9 amended: when the supplied id is missing, empty or unknown, a fresh
conversation is created under the generated id (which differs from the
supplied id only when the generator happens to avoid it — the code does
not enforce that) whose stored messages are exactly system, user,
assistant; when the id is known (and non-empty), the stored conversation
grows by exactly the user message followed by the assistant message; and
the invariant that every stored conversation starts with a system message
is preserved by every call. -/
theorem c9_conversation_lifecycle (env : ChatController.ControllerEnv)
    (message : String) (conversationId : Option String)
    (conversations : ChatController.ConvStore) :
    (ChatController.missingOrUnknown conversationId conversations = true →
      (ChatController.processMessage env message conversationId conversations).1.conversationId
          = ChatController.generateConversationId env ∧
        (ChatController.storeGet
            (ChatController.processMessage env message conversationId conversations).2
            (ChatController.generateConversationId env)).map
              (fun conv => conv.messages.map ChatMessage.role)
          = some ["system", "user", "assistant"]) ∧
      (∀ c, conversationId = some c → ¬(c = "") →
          ChatController.storeHas conversations c = true →
        (ChatController.processMessage env message conversationId conversations).1.conversationId
            = c ∧
          (ChatController.storeGet
              (ChatController.processMessage env message conversationId conversations).2 c).map
                (fun conv => conv.messages.map ChatMessage.role)
            = (ChatController.storeGet conversations c).map
                (fun conv => conv.messages.map ChatMessage.role ++ ["user", "assistant"])) ∧
      (ChatController.systemHeadOk conversations = true →
        ChatController.systemHeadOk
          (ChatController.processMessage env message conversationId conversations).2 = true) := by
  refine ⟨fun hN => ?_, fun c hc hcne hhas => ?_, fun hok => ?_⟩
  · have hpm : ChatController.processMessage env message conversationId conversations
        = ChatController.processMessageGo env message
            (ChatController.generateConversationId env)
            (ChatController.storeSet conversations
              (ChatController.generateConversationId env)
              (ChatController.newConversation env
                (ChatController.generateConversationId env))) := by
      simp [ChatController.processMessage, hN]
    have hgo : ChatController.processMessageGo env message
          (ChatController.generateConversationId env)
          (ChatController.storeSet conversations
            (ChatController.generateConversationId env)
            (ChatController.newConversation env
              (ChatController.generateConversationId env)))
        = ChatController.processMessageFound env message
            (ChatController.generateConversationId env)
            (ChatController.storeSet conversations
              (ChatController.generateConversationId env)
              (ChatController.newConversation env
                (ChatController.generateConversationId env)))
            (ChatController.newConversation env
              (ChatController.generateConversationId env)) := by
      unfold ChatController.processMessageGo
      rw [ChatController.storeGet_storeSet_self]
    refine ⟨by rw [hpm, hgo]; rfl, ?_⟩
    rw [hpm, hgo, processMessageFound_store, ChatController.storeGet_storeSet_self]
    rfl
  · subst hc
    have hpm : ChatController.processMessage env message (some c) conversations
        = ChatController.processMessageGo env message c conversations := by
      simp [ChatController.processMessage, ChatController.missingOrUnknown, hcne, hhas]
    obtain ⟨old, hold⟩ := ChatController.storeHas_exists hhas
    have hgo : ChatController.processMessageGo env message c conversations
        = ChatController.processMessageFound env message c conversations old := by
      unfold ChatController.processMessageGo
      rw [hold]
    refine ⟨by rw [hpm, hgo]; rfl, ?_⟩
    rw [hpm, hgo, hold, processMessageFound_store, ChatController.storeGet_storeSet_self]
    simp [ChatController.userMessage, ChatController.assistantMessage]
  · cases hN : ChatController.missingOrUnknown conversationId conversations with
    | true =>
      have hpm : ChatController.processMessage env message conversationId conversations
          = ChatController.processMessageGo env message
              (ChatController.generateConversationId env)
              (ChatController.storeSet conversations
                (ChatController.generateConversationId env)
                (ChatController.newConversation env
                  (ChatController.generateConversationId env))) := by
        simp [ChatController.processMessage, hN]
      rw [hpm]
      unfold ChatController.processMessageGo
      rw [ChatController.storeGet_storeSet_self, processMessageFound_store]
      exact ChatController.storeSet_all
        (ChatController.storeSet_all hok (by rfl)) (by rfl)
    | false =>
      have hpm : ChatController.processMessage env message conversationId conversations
          = ChatController.processMessageGo env message
              (conversationId.getD "") conversations := by
        simp [ChatController.processMessage, hN]
      rw [hpm]
      unfold ChatController.processMessageGo
      cases hold : ChatController.storeGet conversations (conversationId.getD "") with
      | none => exact hok
      | some old =>
        rw [processMessageFound_store]
        have hOld : ChatController.headIsSystem old = true :=
          ChatController.storeAll_of_get hok hold
        exact ChatController.storeSet_all hok
          (ChatController.headIsSystem_append _
            (ChatController.headIsSystem_append _ hOld))

/-- Witness for C9 at a concrete fresh-conversation call: the id is the
generated one and the stored messages are system, user, assistant. -/
theorem c9_lifecycle_witness :
    (ChatController.processMessage envCtrlFixture "hello" none []).1.conversationId
        = ChatController.generateConversationId envCtrlFixture ∧
      (ChatController.storeGet
          (ChatController.processMessage envCtrlFixture "hello" none []).2
          (ChatController.generateConversationId envCtrlFixture)).map
            (fun conv => conv.messages.map ChatMessage.role)
        = some ["system", "user", "assistant"] :=
  (c9_conversation_lifecycle envCtrlFixture "hello" none []).1 rfl

/-- The generated conversation id is never the empty string (it starts
with `conv-`). -/
theorem generateConversationId_ne_empty (env : ChatController.ControllerEnv) :
    ¬ (ChatController.generateConversationId env = "") := by
  intro hEq
  unfold ChatController.generateConversationId at hEq
  have hlen := congrArg String.length hEq
  rw [String.length_append, String.length_append, String.length_append] at hlen
  have h5 : ("conv-" : String).length = 5 := rfl
  have h0 : ("" : String).length = 0 := rfl
  omega

/-- Justification for the key invariant assumed in the escalation
contract: `processMessage` only ever inserts under the generated
(non-empty) id or back under an existing key, so every reachable store has
only non-empty keys. -/
theorem processMessage_preserves_keysNonempty (env : ChatController.ControllerEnv)
    (message : String) (conversationId : Option String)
    (conversations : ChatController.ConvStore)
    (h : ChatController.keysNonempty conversations = true) :
    ChatController.keysNonempty
      (ChatController.processMessage env message conversationId conversations).2 = true := by
  have hgenp : (!(ChatController.generateConversationId env == "")) = true := by
    simp [generateConversationId_ne_empty env]
  cases hN : ChatController.missingOrUnknown conversationId conversations with
  | true =>
    have hpm : ChatController.processMessage env message conversationId conversations
        = ChatController.processMessageGo env message
            (ChatController.generateConversationId env)
            (ChatController.storeSet conversations
              (ChatController.generateConversationId env)
              (ChatController.newConversation env
                (ChatController.generateConversationId env))) := by
      simp [ChatController.processMessage, hN]
    rw [hpm]
    unfold ChatController.processMessageGo
    rw [ChatController.storeGet_storeSet_self, processMessageFound_store]
    exact ChatController.storeSet_all
      (ChatController.storeSet_all h hgenp) hgenp
  | false =>
    have hpm : ChatController.processMessage env message conversationId conversations
        = ChatController.processMessageGo env message
            (conversationId.getD "") conversations := by
      simp [ChatController.processMessage, hN]
    rw [hpm]
    unfold ChatController.processMessageGo
    cases hold : ChatController.storeGet conversations (conversationId.getD "") with
    | none => exact h
    | some old =>
      rw [processMessageFound_store]
      have hkey := ChatController.storeAll_of_get h hold
      exact ChatController.storeSet_all h hkey
